import Mathlib

/-!
Verification of the collaborative-filtering recommendation engine of
luna-backend (`src/routes/recommendation.js`).

The engine consists of a pure cosine-similarity function over two arrays of
liked post ids (`calculateUserSimilarity`) and a recommendation pipeline
(`getRecommendations`) over a hard-coded in-memory store of four users, nine
posts and five businesses.  Both are embedded below; JS arrays become Lean
lists, JS `Set` insertion-order semantics are modelled explicitly, JS number
arithmetic is modelled by exact real arithmetic, and the optional fields of
the two response shapes are modelled with `Option`.
-/

namespace Luna

/-- JS `Set.prototype.add` restricted to an array accumulator: append the
element unless it is already present, preserving first-occurrence insertion
order. -/
def insertUnique (l : List String) (a : String) : List String :=
  if a ∈ l then l else l ++ [a]

/-- JS `Array.from(new Set(xs))`: first-occurrence deduplication of an array,
insertion order preserved. -/
def jsSetOf (l : List String) : List String :=
  l.foldl insertUnique []

theorem mem_insertUnique {a x : String} {l : List String} :
    a ∈ insertUnique l x ↔ a ∈ l ∨ a = x := by
  unfold insertUnique
  split
  · rename_i h
    constructor
    · exact Or.inl
    · rintro (h1 | rfl)
      · exact h1
      · exact h
  · simp

theorem nodup_insertUnique {l : List String} (h : l.Nodup) (x : String) :
    (insertUnique l x).Nodup := by
  unfold insertUnique
  split
  · exact h
  · rename_i hx
    simp [List.nodup_append, h, hx]

theorem mem_foldl_insertUnique (l : List String) :
    ∀ (acc : List String) (a : String),
      a ∈ l.foldl insertUnique acc ↔ a ∈ acc ∨ a ∈ l := by
  induction l with
  | nil => simp
  | cons x xs ih =>
    intro acc a
    simp only [List.foldl_cons, ih, mem_insertUnique, List.mem_cons]
    tauto

theorem nodup_foldl_insertUnique (l : List String) :
    ∀ acc : List String, acc.Nodup → (l.foldl insertUnique acc).Nodup := by
  induction l with
  | nil => intro acc h; simpa using h
  | cons x xs ih =>
    intro acc h
    exact ih _ (nodup_insertUnique h x)

theorem mem_jsSetOf {a : String} {l : List String} : a ∈ jsSetOf l ↔ a ∈ l := by
  unfold jsSetOf
  simp [mem_foldl_insertUnique]

theorem nodup_jsSetOf (l : List String) : (jsSetOf l).Nodup :=
  nodup_foldl_insertUnique l [] (List.nodup_nil)

theorem toFinset_jsSetOf (l : List String) : (jsSetOf l).toFinset = l.toFinset := by
  ext a
  simp [mem_jsSetOf]

/-- `const allPosts = new Set([...userLikes, ...otherUserLikes])` (line 7). -/
def allPostsOf (userLikes otherUserLikes : List String) : List String :=
  jsSetOf (userLikes ++ otherUserLikes)

/-- The binary preference vector over a feature space `allPosts`
(lines 11-16): 1 where the user likes the post, 0 elsewhere. -/
def binaryVector (allPosts likes : List String) : List ℕ :=
  allPosts.map fun postId => if postId ∈ likes then 1 else 0

/-- `dotProduct` accumulated by the loop of lines 23-27. -/
def dotProductOf (v w : List ℕ) : ℕ :=
  (List.zipWith (fun a b => a * b) v w).sum

/-- `userMagnitude` / `otherUserMagnitude` accumulated by the loop of
lines 23-27 (sum of squared coordinates, before the square root). -/
def magnitudeSq (v : List ℕ) : ℕ :=
  (v.map fun x => x * x).sum

/-- `calculateUserSimilarity` (lines 6-33): cosine similarity of the two
binary vectors over the union feature space, with the two zero guards of
lines 9 and 30.  JS floating-point arithmetic is modelled by exact real
arithmetic. -/
noncomputable def calculateUserSimilarity (userLikes otherUserLikes : List String) : ℝ :=
  let allPosts := allPostsOf userLikes otherUserLikes
  if allPosts.length = 0 then 0
  else
    let userVector := binaryVector allPosts userLikes
    let otherUserVector := binaryVector allPosts otherUserLikes
    let dotProduct := dotProductOf userVector otherUserVector
    let userMagnitude := magnitudeSq userVector
    let otherUserMagnitude := magnitudeSq otherUserVector
    let magnitude := Real.sqrt userMagnitude * Real.sqrt otherUserMagnitude
    if magnitude = 0 then 0
    else (dotProduct : ℝ) / magnitude

theorem sum_indicator {α : Type} (l : List α) (P : α → Prop) [DecidablePred P] :
    (l.map fun p => if P p then (1 : ℕ) else 0).sum
      = (l.filter fun p => decide (P p)).length := by
  induction l with
  | nil => rfl
  | cons x xs ih =>
    by_cases h : P x <;> simp [List.filter_cons, h, ih, Nat.add_comm]

theorem dotProductOf_binary (l A B : List String) :
    dotProductOf (binaryVector l A) (binaryVector l B)
      = (l.filter fun p => decide (p ∈ A ∧ p ∈ B)).length := by
  unfold dotProductOf binaryVector
  have hz : List.zipWith (fun a b => a * b)
      (l.map fun p => if p ∈ A then (1 : ℕ) else 0)
      (l.map fun p => if p ∈ B then (1 : ℕ) else 0)
      = l.map fun p => ((if p ∈ A then (1 : ℕ) else 0) * (if p ∈ B then 1 else 0)) := by
    induction l with
    | nil => rfl
    | cons x xs ih => simp [ih]
  rw [hz]
  have hm : (l.map fun p => ((if p ∈ A then (1 : ℕ) else 0) * (if p ∈ B then 1 else 0)))
      = l.map fun p => if p ∈ A ∧ p ∈ B then (1 : ℕ) else 0 := by
    apply List.map_congr_left
    intro p _
    by_cases hA : p ∈ A <;> by_cases hB : p ∈ B <;> simp [hA, hB]
  rw [hm, sum_indicator]

theorem magnitudeSq_binary (l A : List String) :
    magnitudeSq (binaryVector l A) = (l.filter fun p => decide (p ∈ A)).length := by
  unfold magnitudeSq binaryVector
  have hm : ((l.map fun p => if p ∈ A then (1 : ℕ) else 0).map fun x => x * x)
      = l.map fun p => if p ∈ A then (1 : ℕ) else 0 := by
    rw [List.map_map]
    apply List.map_congr_left
    intro p _
    by_cases hA : p ∈ A <;> simp [hA]
  rw [hm, sum_indicator]

theorem length_filter_eq_card (l : List String) (hl : l.Nodup)
    (P : String → Prop) [DecidablePred P] :
    (l.filter fun p => decide (P p)).length = (l.toFinset.filter P).card := by
  rw [← List.toFinset_card_of_nodup (hl.filter _)]
  congr 1
  ext a
  simp

theorem nodup_allPostsOf (A B : List String) : (allPostsOf A B).Nodup :=
  nodup_jsSetOf _

theorem toFinset_allPostsOf (A B : List String) :
    (allPostsOf A B).toFinset = A.toFinset ∪ B.toFinset := by
  unfold allPostsOf
  rw [toFinset_jsSetOf, List.toFinset_append]

theorem dotProductOf_allPosts (A B : List String) :
    dotProductOf (binaryVector (allPostsOf A B) A) (binaryVector (allPostsOf A B) B)
      = (A.toFinset ∩ B.toFinset).card := by
  rw [dotProductOf_binary,
    length_filter_eq_card (allPostsOf A B) (nodup_allPostsOf A B), toFinset_allPostsOf]
  congr 1
  ext a
  simp
  tauto

theorem magnitudeSq_allPosts_left (A B : List String) :
    magnitudeSq (binaryVector (allPostsOf A B) A) = A.toFinset.card := by
  rw [magnitudeSq_binary,
    length_filter_eq_card (allPostsOf A B) (nodup_allPostsOf A B), toFinset_allPostsOf]
  congr 1
  ext a
  simp
  tauto

theorem magnitudeSq_allPosts_right (A B : List String) :
    magnitudeSq (binaryVector (allPostsOf A B) B) = B.toFinset.card := by
  rw [magnitudeSq_binary,
    length_filter_eq_card (allPostsOf A B) (nodup_allPostsOf A B), toFinset_allPostsOf]
  congr 1
  ext a
  simp
  tauto

theorem allPostsOf_length_eq_zero {A B : List String} :
    (allPostsOf A B).length = 0 ↔ A = [] ∧ B = [] := by
  rw [List.length_eq_zero]
  constructor
  · intro h
    have hm : ∀ a : String, a ∉ A ++ B := by
      intro a ha
      have : a ∈ allPostsOf A B := by
        unfold allPostsOf
        exact mem_jsSetOf.mpr ha
      rw [h] at this
      exact (List.not_mem_nil a) this
    have : A ++ B = [] := List.eq_nil_iff_forall_not_mem.mpr hm
    exact List.append_eq_nil.mp this
  · rintro ⟨rfl, rfl⟩
    rfl

/-- Closed form of the source similarity: it always equals
`|A ∩ B| / (√|A| · √|B|)` over the deduplicated like-sets (with Lean's
division-by-zero convention coinciding with the two `return 0` guards). -/
theorem calculateUserSimilarity_eq (A B : List String) :
    calculateUserSimilarity A B
      = ((A.toFinset ∩ B.toFinset).card : ℝ)
          / (Real.sqrt A.toFinset.card * Real.sqrt B.toFinset.card) := by
  unfold calculateUserSimilarity
  simp only []
  split
  · rename_i h
    obtain ⟨rfl, rfl⟩ := allPostsOf_length_eq_zero.mp h
    simp
  · rename_i h
    rw [dotProductOf_allPosts, magnitudeSq_allPosts_left, magnitudeSq_allPosts_right]
    split
    · rename_i hm
      rw [hm, div_zero]
    · rfl

theorem toFinset_eq_empty_iff_nil {l : List String} : l.toFinset = ∅ ↔ l = [] := by
  cases l <;> simp

theorem toFinset_card_eq_zero_iff_nil {l : List String} :
    l.toFinset.card = 0 ↔ l = [] := by
  rw [Finset.card_eq_zero, toFinset_eq_empty_iff_nil]

/-- Core inequality step: if the intersection is as large as both sides and
both sides are non-empty then it has exactly the size of each side. -/
theorem inter_card_eq_of_sq {n a b : ℕ} (hna : n ≤ a) (hnb : n ≤ b)
    (hsq : n * n = a * b) (ha : a ≠ 0) (hb : b ≠ 0) : n = a ∧ n = b := by
  have hb0 : 0 < b := Nat.pos_of_ne_zero hb
  have ha0 : 0 < a := Nat.pos_of_ne_zero ha
  have h1 : a ≤ n := by
    by_contra hlt
    push_neg at hlt
    have : n * b < a * b := Nat.mul_lt_mul_of_lt_of_le hlt (le_refl b) hb0
    have h2 : n * n ≤ n * b := Nat.mul_le_mul_left n hnb
    omega
  have h2 : b ≤ n := by
    by_contra hlt
    push_neg at hlt
    have : a * n < a * b := Nat.mul_lt_mul_of_le_of_lt (le_refl a) hlt ha0
    have h3 : n * n ≤ a * n := Nat.mul_le_mul_right n hna
    omega
  exact ⟨le_antisymm hna h1, le_antisymm hnb h2⟩

/-- C2 — Identity case of the similarity function: `calculateUserSimilarity A A = 1`
for every non-empty like-set `A`, and in general the similarity equals `1` exactly
when the two like-sets are identical (equal as sets of post ids) and non-empty. -/
theorem calculateUserSimilarity_identity (A B : List String) :
    (A ≠ [] → calculateUserSimilarity A A = 1)
      ∧ (calculateUserSimilarity A B = 1 ↔ A.toFinset = B.toFinset ∧ A ≠ []) := by
  have main : ∀ C D : List String,
      calculateUserSimilarity C D = 1 ↔ C.toFinset = D.toFinset ∧ C ≠ [] := by
    intro C D
    rw [calculateUserSimilarity_eq]
    constructor
    · intro h
      have hd : Real.sqrt C.toFinset.card * Real.sqrt D.toFinset.card ≠ 0 := by
        intro h0
        rw [h0, div_zero] at h
        exact zero_ne_one h
      have hC0 : (C.toFinset.card : ℝ) ≠ 0 := by
        intro h0
        apply hd
        have : Real.sqrt C.toFinset.card = 0 := by
          rw [Real.sqrt_eq_zero']
          exact le_of_eq h0
        rw [this, zero_mul]
      have hD0 : (D.toFinset.card : ℝ) ≠ 0 := by
        intro h0
        apply hd
        have : Real.sqrt D.toFinset.card = 0 := by
          rw [Real.sqrt_eq_zero']
          exact le_of_eq h0
        rw [this, mul_zero]
      have hC : C.toFinset.card ≠ 0 := fun h0 => hC0 (by exact_mod_cast h0)
      have hD : D.toFinset.card ≠ 0 := fun h0 => hD0 (by exact_mod_cast h0)
      have heq : ((C.toFinset ∩ D.toFinset).card : ℝ)
          = Real.sqrt C.toFinset.card * Real.sqrt D.toFinset.card :=
        (div_eq_one_iff_eq hd).mp h
      have hsqR : ((C.toFinset ∩ D.toFinset).card : ℝ) ^ 2
          = (C.toFinset.card : ℝ) * D.toFinset.card := by
        rw [heq, mul_pow, Real.sq_sqrt (Nat.cast_nonneg _), Real.sq_sqrt (Nat.cast_nonneg _)]
      have hsq : (C.toFinset ∩ D.toFinset).card * (C.toFinset ∩ D.toFinset).card
          = C.toFinset.card * D.toFinset.card := by
        have := hsqR
        rw [sq] at this
        exact_mod_cast this
      obtain ⟨h1, h2⟩ := inter_card_eq_of_sq
        (Finset.card_le_card Finset.inter_subset_left)
        (Finset.card_le_card Finset.inter_subset_right) hsq hC hD
      have e1 : C.toFinset ∩ D.toFinset = C.toFinset :=
        Finset.eq_of_subset_of_card_le Finset.inter_subset_left (le_of_eq h1.symm)
      have e2 : C.toFinset ∩ D.toFinset = D.toFinset :=
        Finset.eq_of_subset_of_card_le Finset.inter_subset_right (le_of_eq h2.symm)
      refine ⟨e1 ▸ e2, ?_⟩
      intro hnil
      apply hC
      rw [toFinset_card_eq_zero_iff_nil]
      exact hnil
    · rintro ⟨hset, hnil⟩
      rw [← hset, Finset.inter_self]
      have hC : C.toFinset.card ≠ 0 := fun h0 => hnil (toFinset_card_eq_zero_iff_nil.mp h0)
      rw [Real.mul_self_sqrt (Nat.cast_nonneg _)]
      exact div_self (Nat.cast_ne_zero.mpr hC)
  refine ⟨fun hA => (main A A).mpr ⟨rfl, hA⟩, main A B⟩

/-- Witness for C2 at a concrete input: the singleton like-set. -/
theorem calculateUserSimilarity_identity_witness :
    (["post_1"] : List String) ≠ [] ∧ calculateUserSimilarity ["post_1"] ["post_1"] = 1 :=
  ⟨by decide, (calculateUserSimilarity_identity ["post_1"] ["post_1"]).1 (by decide)⟩

/-- C3 — Symmetry of the similarity function: swapping the two like-sets does
not change the cosine similarity. -/
theorem calculateUserSimilarity_symm (A B : List String) :
    calculateUserSimilarity A B = calculateUserSimilarity B A := by
  rw [calculateUserSimilarity_eq, calculateUserSimilarity_eq, Finset.inter_comm, mul_comm]

/-- C4 — Range of the similarity function: the result always lies in `[0, 1]`,
and it is `0` exactly when the two like-sets share no item or either list is
empty (the zero guards replace the division by zero). -/
theorem calculateUserSimilarity_bounds (A B : List String) :
    0 ≤ calculateUserSimilarity A B ∧ calculateUserSimilarity A B ≤ 1
      ∧ (calculateUserSimilarity A B = 0 ↔
          A.toFinset ∩ B.toFinset = ∅ ∨ A = [] ∨ B = []) := by
  rw [calculateUserSimilarity_eq]
  have hna : (A.toFinset ∩ B.toFinset).card ≤ A.toFinset.card :=
    Finset.card_le_card Finset.inter_subset_left
  have hnb : (A.toFinset ∩ B.toFinset).card ≤ B.toFinset.card :=
    Finset.card_le_card Finset.inter_subset_right
  refine ⟨div_nonneg (Nat.cast_nonneg _)
      (mul_nonneg (Real.sqrt_nonneg _) (Real.sqrt_nonneg _)), ?_, ?_⟩
  · apply div_le_one_of_le₀
    · rw [← Real.sqrt_mul (Nat.cast_nonneg _)]
      have hcast : ((A.toFinset ∩ B.toFinset).card : ℝ)
          = Real.sqrt (((A.toFinset ∩ B.toFinset).card : ℝ) ^ 2) :=
        (Real.sqrt_sq (Nat.cast_nonneg _)).symm
      rw [hcast]
      apply Real.sqrt_le_sqrt
      have hn : (A.toFinset ∩ B.toFinset).card * (A.toFinset ∩ B.toFinset).card
          ≤ A.toFinset.card * B.toFinset.card := Nat.mul_le_mul hna hnb
      rw [sq]
      exact_mod_cast hn
    · exact mul_nonneg (Real.sqrt_nonneg _) (Real.sqrt_nonneg _)
  · rw [div_eq_zero_iff]
    constructor
    · rintro (h | h)
      · left
        exact Finset.card_eq_zero.mp (by exact_mod_cast h)
      · rcases mul_eq_zero.mp h with h' | h'
        · right; left
          rw [Real.sqrt_eq_zero' ] at h'
          have : A.toFinset.card = 0 := by
            have h0 : (A.toFinset.card : ℝ) ≤ 0 := h'
            exact_mod_cast le_antisymm h0 (Nat.cast_nonneg _)
          exact toFinset_card_eq_zero_iff_nil.mp this
        · right; right
          rw [Real.sqrt_eq_zero' ] at h'
          have : B.toFinset.card = 0 := by
            have h0 : (B.toFinset.card : ℝ) ≤ 0 := h'
            exact_mod_cast le_antisymm h0 (Nat.cast_nonneg _)
          exact toFinset_card_eq_zero_iff_nil.mp this
    · intro h
      left
      have hempty : A.toFinset ∩ B.toFinset = ∅ := by
        rcases h with h | h | h
        · exact h
        · subst h
          simp
        · subst h
          simp
      rw [hempty]
      simp

/-- Business metadata record (`mockData.businesses` values). -/
structure Business where
  id : String
  name : String
  category : String
deriving DecidableEq

/-- `mockData.userLikes` (lines 37-42), in object-literal insertion order. -/
def mockUserLikes : List (String × List String) :=
  [("user_1", ["post_1", "post_2", "post_3", "post_5"]),
   ("user_2", ["post_2", "post_3", "post_4", "post_6"]),
   ("user_3", ["post_1", "post_4", "post_7", "post_8"]),
   ("user_4", ["post_2", "post_5", "post_6", "post_9"])]

/-- `mockData.postBusinessMap` (lines 43-53). -/
def mockPostBusinessMap : List (String × String) :=
  [("post_1", "business_1"), ("post_2", "business_2"), ("post_3", "business_1"),
   ("post_4", "business_3"), ("post_5", "business_2"), ("post_6", "business_3"),
   ("post_7", "business_4"), ("post_8", "business_4"), ("post_9", "business_5")]

/-- `mockData.businesses` (lines 54-60). -/
def mockBusinesses : List (String × Business) :=
  [("business_1", ⟨"business_1", "Coffee Shop A", "Food & Drink"⟩),
   ("business_2", ⟨"business_2", "Restaurant B", "Food & Drink"⟩),
   ("business_3", ⟨"business_3", "Gym C", "Fitness"⟩),
   ("business_4", ⟨"business_4", "Salon D", "Beauty"⟩),
   ("business_5", ⟨"business_5", "Bookstore E", "Retail"⟩)]

/-- `mockData.userLikes[userId] || []` (line 63; the same expression without
the `|| []` default at line 96 is only ever evaluated at keys of the table,
where the two coincide). -/
def likesOf (userId : String) : List String :=
  (mockUserLikes.lookup userId).getD []

/-- `mockData.businesses[businessId]` (line 114); every id in the range of
`mockPostBusinessMap` is a key of `mockBusinesses`, so the fallback record is
never used. -/
def businessOf (businessId : String) : Business :=
  (mockBusinesses.lookup businessId).getD ⟨businessId, "", ""⟩

/-- One entry of the `userSimilarities` array (lines 80-84). -/
structure SimilarUser where
  userId : String
  similarity : ℝ
  sharedLikes : ℕ

/-- One entry of the returned `potentialFriends` array (lines 133-137). -/
structure FriendRec where
  userId : String
  similarityScore : ℝ
  sharedInterests : ℕ

/-- One value of the `businessScores` accumulator object (lines 112-118). -/
structure ScoredBusiness where
  business : Business
  score : ℝ
  recommendedPosts : List String

/-- One entry of the returned `recommendedBusinesses` array (lines 126-130). -/
structure BusinessRec where
  business : Business
  recommendationScore : ℝ
  reason : String

/-- The object returned by `getRecommendations`.  The empty-likes path returns
an object carrying only the two empty arrays and a `message` field; the main
path carries `algorithm` and `totalSimilarUsers` and no `message`.  Fields
absent from a JS object are modelled as `none`. -/
structure RecResult where
  potentialFriends : List FriendRec
  recommendedBusinesses : List BusinessRec
  message : Option String
  algorithm : Option String
  totalSimilarUsers : Option ℕ

/-- The loop of lines 74-86: every other user of the store with strictly
positive similarity, in store iteration order, with the shared-like count of
line 83. -/
noncomputable def userSimilarities (userId : String) : List SimilarUser :=
  (mockUserLikes.filter fun p => decide (p.1 ≠ userId)).filterMap fun p =>
    if 0 < calculateUserSimilarity (likesOf userId) p.2 then
      some ⟨p.1, calculateUserSimilarity (likesOf userId) p.2,
        ((likesOf userId).filter fun like => decide (like ∈ p.2)).length⟩
    else none

/-- Descending-similarity comparison used by the sort of line 88. -/
def byDescSimilarity (a b : SimilarUser) : Prop :=
  b.similarity ≤ a.similarity

noncomputable instance : DecidableRel byDescSimilarity :=
  fun a b => inferInstanceAs (Decidable (b.similarity ≤ a.similarity))

instance : IsTotal SimilarUser byDescSimilarity :=
  ⟨fun a b => le_total b.similarity a.similarity⟩

instance : IsTrans SimilarUser byDescSimilarity :=
  ⟨fun _ _ _ h1 h2 => le_trans h2 h1⟩

/-- Lines 88-89: stable sort by descending similarity, then `slice(0, 10)`.
JS `Array.prototype.sort` is stable, which insertion sort with this
comparison reproduces. -/
noncomputable def topSimilarUsers (userId : String) : List SimilarUser :=
  (List.insertionSort byDescSimilarity (userSimilarities userId)).take 10

/-- Body of the inner loop of lines 97-105: skip a post the requester
already likes, otherwise record it in the `recommendedPostIds` set and add
the similar user's similarity to its running score. -/
noncomputable def accumStep (cur : List String) (sim : ℝ)
    (acc2 : List String × (String → ℝ)) (postId : String) :
    List String × (String → ℝ) :=
  if postId ∈ cur then acc2
  else (insertUnique acc2.1 postId,
        fun p => if p = postId then acc2.2 p + sim else acc2.2 p)

/-- The inner loop of lines 97-105 for one similar user: walk that user's
like list with `accumStep`. -/
noncomputable def accumLikes (cur : List String) (sim : ℝ)
    (acc : List String × (String → ℝ)) (likes : List String) :
    List String × (String → ℝ) :=
  likes.foldl (accumStep cur sim) acc

/-- Lines 92-106: `recommendedPostIds` (a JS `Set`, kept in insertion order)
together with the `postScores` map (total function, absent keys scoring 0). -/
noncomputable def postAccum (userId : String) : List String × (String → ℝ) :=
  (topSimilarUsers userId).foldl
    (fun acc su => accumLikes (likesOf userId) su.similarity acc (likesOf su.userId))
    ([], fun _ => 0)

/-- One step of the loop of lines 109-122: create the business bucket on
first sight (insertion order preserved), then add the post's score and push
the post id. -/
noncomputable def updateBusiness (acc : List (String × ScoredBusiness))
    (businessId : String) (score : ℝ) (postId : String) :
    List (String × ScoredBusiness) :=
  if acc.any fun e => e.1 == businessId then
    acc.map fun e =>
      if e.1 == businessId then
        (e.1, ⟨e.2.business, e.2.score + score, e.2.recommendedPosts ++ [postId]⟩)
      else e
  else acc ++ [(businessId, ⟨businessOf businessId, score, [postId]⟩)]

/-- Lines 108-122: the `businessScores` object as an insertion-ordered
association list. -/
noncomputable def businessScores (userId : String) : List (String × ScoredBusiness) :=
  (postAccum userId).1.foldl
    (fun acc postId =>
      match mockPostBusinessMap.lookup postId with
      | none => acc
      | some businessId => updateBusiness acc businessId ((postAccum userId).2 postId) postId)
    []

/-- Descending-score comparison used by the sort of line 125. -/
def byDescScore (a b : ScoredBusiness) : Prop :=
  b.score ≤ a.score

noncomputable instance : DecidableRel byDescScore :=
  fun a b => inferInstanceAs (Decidable (b.score ≤ a.score))

instance : IsTotal ScoredBusiness byDescScore :=
  ⟨fun a b => le_total b.score a.score⟩

instance : IsTrans ScoredBusiness byDescScore :=
  ⟨fun _ _ _ h1 h2 => le_trans h2 h1⟩

/-- Lines 124-130: `Object.values(businessScores)` stably sorted by
descending score and shaped into response entries. -/
noncomputable def recommendedBusinessesOf (userId : String) : List BusinessRec :=
  (List.insertionSort byDescScore ((businessScores userId).map Prod.snd)).map
    fun item =>
      ⟨item.business, item.score,
        "Liked by " ++ toString item.recommendedPosts.length ++ " similar user(s)"⟩

/-- `getRecommendations` (lines 35-142). -/
noncomputable def getRecommendations (userId : String) : RecResult :=
  if (likesOf userId).length = 0 then
    { potentialFriends := []
      recommendedBusinesses := []
      message := some "No likes found for user. Start liking posts to get recommendations!"
      algorithm := none
      totalSimilarUsers := none }
  else
    { potentialFriends :=
        (topSimilarUsers userId).map fun u => ⟨u.userId, u.similarity, u.sharedLikes⟩
      recommendedBusinesses := (recommendedBusinessesOf userId).take 20
      message := none
      algorithm := some "collaborative_filtering"
      totalSimilarUsers := some (userSimilarities userId).length }

theorem lookup_eq_none_of_no_key {β : Type} (l : List (String × β)) (a : String)
    (h : ∀ p ∈ l, p.1 ≠ a) : l.lookup a = none := by
  induction l with
  | nil => rfl
  | cons x xs ih =>
    obtain ⟨k, v⟩ := x
    have hx : (a == k) = false :=
      beq_eq_false_iff_ne.mpr fun e => h (k, v) (List.mem_cons_self _ _) e.symm
    simp only [List.lookup, hx]
    exact ih fun p hp => h p (List.mem_cons_of_mem _ hp)

/-- C8 — Empty-likes path: a requester whose like-set is empty gets the
short-circuit result of lines 65-71: both lists empty plus the explanatory
message, and no error. -/
theorem empty_likes_path (userId : String) (h : likesOf userId = []) :
    getRecommendations userId =
      { potentialFriends := []
        recommendedBusinesses := []
        message := some "No likes found for user. Start liking posts to get recommendations!"
        algorithm := none
        totalSimilarUsers := none } := by
  unfold getRecommendations
  rw [h]
  simp

/-- Witness for C8 at the concrete user id `user_5`, which has no likes in
the store. -/
theorem empty_likes_path_witness :
    likesOf "user_5" = [] ∧
      getRecommendations "user_5" =
        { potentialFriends := []
          recommendedBusinesses := []
          message := some "No likes found for user. Start liking posts to get recommendations!"
          algorithm := none
          totalSimilarUsers := none } :=
  ⟨by decide, empty_likes_path "user_5" (by decide)⟩

/-- C10 — Unknown-user handling: a user id absent from the like table is
served exactly like a user with an empty like-set (the `|| []` default of
line 63), without failing. -/
theorem unknown_user_empty_result (userId : String)
    (h : ∀ p ∈ mockUserLikes, p.1 ≠ userId) :
    getRecommendations userId =
      { potentialFriends := []
        recommendedBusinesses := []
        message := some "No likes found for user. Start liking posts to get recommendations!"
        algorithm := none
        totalSimilarUsers := none } := by
  have hl : likesOf userId = [] := by
    unfold likesOf
    rw [lookup_eq_none_of_no_key _ _ h]
    rfl
  unfold getRecommendations
  rw [hl]
  simp

/-- Witness for C10 at the concrete unknown user id `user_77`. -/
theorem unknown_user_empty_result_witness :
    (∀ p ∈ mockUserLikes, p.1 ≠ "user_77") ∧
      getRecommendations "user_77" =
        { potentialFriends := []
          recommendedBusinesses := []
          message := some "No likes found for user. Start liking posts to get recommendations!"
          algorithm := none
          totalSimilarUsers := none } :=
  ⟨by decide, unknown_user_empty_result "user_77" (by decide)⟩

/-- C5 — No self-recommendation: the requester's id never appears among the
entries of `potentialFriends` (the `continue` of line 76 skips it before
similarity is ever recorded). -/
theorem no_self_recommendation (userId : String) :
    ∀ f ∈ (getRecommendations userId).potentialFriends, f.userId ≠ userId := by
  intro f hf
  unfold getRecommendations at hf
  split at hf
  · simp at hf
  · simp only [List.mem_map] at hf
    obtain ⟨u, hu, rfl⟩ := hf
    unfold topSimilarUsers at hu
    have hu1 : u ∈ List.insertionSort byDescSimilarity (userSimilarities userId) :=
      (List.take_sublist _ _).subset hu
    have hu2 : u ∈ userSimilarities userId :=
      (List.perm_insertionSort _ _).mem_iff.mp hu1
    unfold userSimilarities at hu2
    simp only [List.mem_filterMap] at hu2
    obtain ⟨p, hp, hpu⟩ := hu2
    have hp1 := (List.mem_filter.mp hp).2
    split at hpu
    · cases hpu
      simpa using hp1
    · cases hpu

/-- C7 — Truncation and ordering: `potentialFriends` is the descending-by-
similarity top 10 and `recommendedBusinesses` the descending-by-score top 20
(lines 88-89, 124-125, 138). -/
theorem truncation_and_ordering (userId : String) :
    (getRecommendations userId).potentialFriends.length ≤ 10
    ∧ (getRecommendations userId).potentialFriends.Pairwise
        (fun a b => b.similarityScore ≤ a.similarityScore)
    ∧ (getRecommendations userId).recommendedBusinesses.length ≤ 20
    ∧ (getRecommendations userId).recommendedBusinesses.Pairwise
        (fun a b => b.recommendationScore ≤ a.recommendationScore) := by
  unfold getRecommendations
  split
  · simp
  · refine ⟨?_, ?_, ?_, ?_⟩
    · simp only [List.length_map, topSimilarUsers, List.length_take]
      exact min_le_left _ _
    · rw [List.pairwise_map]
      unfold topSimilarUsers
      apply List.Pairwise.sublist (List.take_sublist _ _)
      exact List.sorted_insertionSort byDescSimilarity (userSimilarities userId)
    · simp only [List.length_take]
      exact min_le_left _ _
    · apply List.Pairwise.sublist (List.take_sublist _ _)
      unfold recommendedBusinessesOf
      rw [List.pairwise_map]
      exact List.sorted_insertionSort byDescScore _

/-- C9 (amended) — Result envelope on the main path: whenever the requester
has at least one like, the result carries the algorithm tag and
`totalSimilarUsers` counts the other users with strictly positive
similarity, before the top-10 truncation. -/
theorem envelope_fields (userId : String) (h : likesOf userId ≠ []) :
    (getRecommendations userId).algorithm = some "collaborative_filtering"
    ∧ (getRecommendations userId).totalSimilarUsers
        = some ((mockUserLikes.filter fun p => decide (p.1 ≠ userId)).countP
            fun p => decide (0 < calculateUserSimilarity (likesOf userId) p.2)) := by
  unfold getRecommendations
  rw [if_neg (by simpa using h)]
  refine ⟨rfl, ?_⟩
  simp only [Option.some.injEq]
  unfold userSimilarities
  generalize (mockUserLikes.filter fun p => decide (p.1 ≠ userId)) = l
  induction l with
  | nil => rfl
  | cons x xs ih =>
    by_cases hx : 0 < calculateUserSimilarity (likesOf userId) x.2
    · rw [List.filterMap_cons, List.countP_cons]
      simp [hx, ih]
    · rw [List.filterMap_cons, List.countP_cons]
      simp [hx, ih]

/-- Witness for C9 at the concrete user id `user_1`. -/
theorem envelope_fields_witness :
    likesOf "user_1" ≠ [] ∧
      (getRecommendations "user_1").algorithm = some "collaborative_filtering" :=
  ⟨by decide, (envelope_fields "user_1" (by decide)).1⟩

/-- C9 counterexample — the claim quantifies over every user id, but on the
empty-likes path (lines 65-71) the returned object carries neither the
`algorithm` tag nor a `totalSimilarUsers` field (modelled as `none`):
`user_9` has no likes in the store. -/
theorem envelope_fields_claim_false :
    (getRecommendations "user_9").algorithm ≠ some "collaborative_filtering"
    ∧ (getRecommendations "user_9").totalSimilarUsers = none := by
  have h : likesOf "user_9" = [] := by decide
  unfold getRecommendations
  rw [h]
  simp

theorem sqrt_four : Real.sqrt 4 = 2 := by
  rw [show (4 : ℝ) = 2 ^ 2 by norm_num, Real.sqrt_sq (by norm_num : (0 : ℝ) ≤ 2)]

theorem likesOf_user1 : likesOf "user_1" = ["post_1", "post_2", "post_3", "post_5"] := by
  decide

theorem likesOf_user2 : likesOf "user_2" = ["post_2", "post_3", "post_4", "post_6"] := by
  decide

theorem likesOf_user3 : likesOf "user_3" = ["post_1", "post_4", "post_7", "post_8"] := by
  decide

theorem likesOf_user4 : likesOf "user_4" = ["post_2", "post_5", "post_6", "post_9"] := by
  decide

theorem sim_u1_u2 :
    calculateUserSimilarity ["post_1", "post_2", "post_3", "post_5"]
      ["post_2", "post_3", "post_4", "post_6"] = 1 / 2 := by
  rw [calculateUserSimilarity_eq]
  rw [show ((["post_1", "post_2", "post_3", "post_5"] : List String).toFinset
      ∩ (["post_2", "post_3", "post_4", "post_6"] : List String).toFinset).card = 2 by decide]
  rw [show (["post_1", "post_2", "post_3", "post_5"] : List String).toFinset.card = 4 by decide]
  rw [show (["post_2", "post_3", "post_4", "post_6"] : List String).toFinset.card = 4 by decide]
  norm_num [sqrt_four]

theorem sim_u1_u3 :
    calculateUserSimilarity ["post_1", "post_2", "post_3", "post_5"]
      ["post_1", "post_4", "post_7", "post_8"] = 1 / 4 := by
  rw [calculateUserSimilarity_eq]
  rw [show ((["post_1", "post_2", "post_3", "post_5"] : List String).toFinset
      ∩ (["post_1", "post_4", "post_7", "post_8"] : List String).toFinset).card = 1 by decide]
  rw [show (["post_1", "post_2", "post_3", "post_5"] : List String).toFinset.card = 4 by decide]
  rw [show (["post_1", "post_4", "post_7", "post_8"] : List String).toFinset.card = 4 by decide]
  norm_num [sqrt_four]

theorem sim_u1_u4 :
    calculateUserSimilarity ["post_1", "post_2", "post_3", "post_5"]
      ["post_2", "post_5", "post_6", "post_9"] = 1 / 2 := by
  rw [calculateUserSimilarity_eq]
  rw [show ((["post_1", "post_2", "post_3", "post_5"] : List String).toFinset
      ∩ (["post_2", "post_5", "post_6", "post_9"] : List String).toFinset).card = 2 by decide]
  rw [show (["post_1", "post_2", "post_3", "post_5"] : List String).toFinset.card = 4 by decide]
  rw [show (["post_2", "post_5", "post_6", "post_9"] : List String).toFinset.card = 4 by decide]
  norm_num [sqrt_four]

theorem filter_ne_user1 :
    (mockUserLikes.filter fun p => decide (p.1 ≠ "user_1"))
      = [("user_2", ["post_2", "post_3", "post_4", "post_6"]),
         ("user_3", ["post_1", "post_4", "post_7", "post_8"]),
         ("user_4", ["post_2", "post_5", "post_6", "post_9"])] := by
  decide

theorem userSimilarities_user1 :
    userSimilarities "user_1" =
      [⟨"user_2", 1 / 2, 2⟩, ⟨"user_3", 1 / 4, 1⟩, ⟨"user_4", 1 / 2, 2⟩] := by
  unfold userSimilarities
  rw [likesOf_user1, filter_ne_user1]
  simp only [List.filterMap_cons, List.filterMap_nil]
  rw [show (List.filter (fun like => decide (like ∈ ["post_2", "post_3", "post_4", "post_6"]))
      ["post_1", "post_2", "post_3", "post_5"]).length = 2 by decide]
  rw [show (List.filter (fun like => decide (like ∈ ["post_1", "post_4", "post_7", "post_8"]))
      ["post_1", "post_2", "post_3", "post_5"]).length = 1 by decide]
  rw [show (List.filter (fun like => decide (like ∈ ["post_2", "post_5", "post_6", "post_9"]))
      ["post_1", "post_2", "post_3", "post_5"]).length = 2 by decide]
  rw [sim_u1_u2, sim_u1_u3, sim_u1_u4]
  norm_num

theorem sorted_user1 :
    List.insertionSort byDescSimilarity
        [⟨"user_2", 1 / 2, 2⟩, ⟨"user_3", 1 / 4, 1⟩, ⟨"user_4", 1 / 2, 2⟩]
      = [⟨"user_2", 1 / 2, 2⟩, ⟨"user_4", 1 / 2, 2⟩, ⟨"user_3", 1 / 4, 1⟩] := by
  simp only [List.insertionSort, List.orderedInsert]
  norm_num [byDescSimilarity]

theorem topSimilarUsers_user1 :
    topSimilarUsers "user_1" =
      [⟨"user_2", 1 / 2, 2⟩, ⟨"user_4", 1 / 2, 2⟩, ⟨"user_3", 1 / 4, 1⟩] := by
  unfold topSimilarUsers
  rw [userSimilarities_user1, sorted_user1]
  rfl

theorem postAccum_user1_fst :
    (postAccum "user_1").1 = ["post_4", "post_6", "post_9", "post_7", "post_8"] := by
  unfold postAccum
  rw [topSimilarUsers_user1, likesOf_user1]
  simp [accumLikes, accumStep, likesOf_user2, likesOf_user3, likesOf_user4, insertUnique]

theorem postAccum_user1_p4 : (postAccum "user_1").2 "post_4" = 3 / 4 := by
  unfold postAccum
  rw [topSimilarUsers_user1, likesOf_user1]
  simp [accumLikes, accumStep, likesOf_user2, likesOf_user3, likesOf_user4, insertUnique]
  norm_num

theorem postAccum_user1_p6 : (postAccum "user_1").2 "post_6" = 1 := by
  unfold postAccum
  rw [topSimilarUsers_user1, likesOf_user1]
  simp [accumLikes, accumStep, likesOf_user2, likesOf_user3, likesOf_user4, insertUnique]
  norm_num

theorem postAccum_user1_p9 : (postAccum "user_1").2 "post_9" = 1 / 2 := by
  unfold postAccum
  rw [topSimilarUsers_user1, likesOf_user1]
  simp [accumLikes, accumStep, likesOf_user2, likesOf_user3, likesOf_user4, insertUnique]

theorem postAccum_user1_p7 : (postAccum "user_1").2 "post_7" = 1 / 4 := by
  unfold postAccum
  rw [topSimilarUsers_user1, likesOf_user1]
  simp [accumLikes, accumStep, likesOf_user2, likesOf_user3, likesOf_user4, insertUnique]

theorem postAccum_user1_p8 : (postAccum "user_1").2 "post_8" = 1 / 4 := by
  unfold postAccum
  rw [topSimilarUsers_user1, likesOf_user1]
  simp [accumLikes, accumStep, likesOf_user2, likesOf_user3, likesOf_user4, insertUnique]

theorem businessScores_user1 :
    businessScores "user_1" =
      [("business_3", ⟨⟨"business_3", "Gym C", "Fitness"⟩, 7 / 4, ["post_4", "post_6"]⟩),
       ("business_5", ⟨⟨"business_5", "Bookstore E", "Retail"⟩, 1 / 2, ["post_9"]⟩),
       ("business_4", ⟨⟨"business_4", "Salon D", "Beauty"⟩, 1 / 2, ["post_7", "post_8"]⟩)] := by
  unfold businessScores
  rw [postAccum_user1_fst]
  simp only [List.foldl_cons, List.foldl_nil]
  rw [show mockPostBusinessMap.lookup "post_4" = some "business_3" by decide]
  rw [show mockPostBusinessMap.lookup "post_6" = some "business_3" by decide]
  rw [show mockPostBusinessMap.lookup "post_9" = some "business_5" by decide]
  rw [show mockPostBusinessMap.lookup "post_7" = some "business_4" by decide]
  rw [show mockPostBusinessMap.lookup "post_8" = some "business_4" by decide]
  rw [postAccum_user1_p4, postAccum_user1_p6, postAccum_user1_p9, postAccum_user1_p7,
    postAccum_user1_p8]
  simp [updateBusiness, businessOf, mockBusinesses]
  refine ⟨⟨by decide, by norm_num⟩, by decide, by decide, by norm_num⟩

theorem recommendedBusinessesOf_user1 :
    recommendedBusinessesOf "user_1" =
      [⟨⟨"business_3", "Gym C", "Fitness"⟩, 7 / 4, "Liked by 2 similar user(s)"⟩,
       ⟨⟨"business_5", "Bookstore E", "Retail"⟩, 1 / 2, "Liked by 1 similar user(s)"⟩,
       ⟨⟨"business_4", "Salon D", "Beauty"⟩, 1 / 2, "Liked by 2 similar user(s)"⟩] := by
  unfold recommendedBusinessesOf
  rw [businessScores_user1]
  simp only [List.map_cons, List.map_nil, List.insertionSort, List.orderedInsert]
  norm_num [byDescScore]
  refine ⟨by decide, by decide, by decide⟩

theorem getRecommendations_user1_friends :
    (getRecommendations "user_1").potentialFriends =
      [⟨"user_2", 1 / 2, 2⟩, ⟨"user_4", 1 / 2, 2⟩, ⟨"user_3", 1 / 4, 1⟩] := by
  unfold getRecommendations
  rw [if_neg (by decide : ¬(likesOf "user_1").length = 0)]
  rw [topSimilarUsers_user1]
  rfl

theorem getRecommendations_user1_businesses :
    (getRecommendations "user_1").recommendedBusinesses =
      [⟨⟨"business_3", "Gym C", "Fitness"⟩, 7 / 4, "Liked by 2 similar user(s)"⟩,
       ⟨⟨"business_5", "Bookstore E", "Retail"⟩, 1 / 2, "Liked by 1 similar user(s)"⟩,
       ⟨⟨"business_4", "Salon D", "Beauty"⟩, 1 / 2, "Liked by 2 similar user(s)"⟩] := by
  unfold getRecommendations
  rw [if_neg (by decide : ¬(likesOf "user_1").length = 0)]
  rw [recommendedBusinessesOf_user1]
  rfl

/-- C1 (amended) — On the fixed mock store, `user_1`'s similarity ranking is
`user_2 ≈ user_4 > user_3` (`user_2` and `user_4` tie at `1/2`, listed in
store order, strictly above `user_3` at `1/4`), and `recommendedBusinesses`
is exactly `[business_3, business_5, business_4]`: `business_1` and
`business_2` cannot appear because every post of theirs is already liked by
`user_1`. -/
theorem user1_fixture_output :
    (getRecommendations "user_1").potentialFriends =
      [⟨"user_2", 1 / 2, 2⟩, ⟨"user_4", 1 / 2, 2⟩, ⟨"user_3", 1 / 4, 1⟩]
    ∧ ((getRecommendations "user_1").recommendedBusinesses.map
        fun r => (r.business.id, r.recommendationScore)) =
      [("business_3", 7 / 4), ("business_5", 1 / 2), ("business_4", 1 / 2)] := by
  rw [getRecommendations_user1_friends, getRecommendations_user1_businesses]
  exact ⟨rfl, rfl⟩

/-- C1 counterexample — the claimed fixture behaviour is false on the code:
`user_2` is NOT strictly above `user_4` (both score `1/2`, so the ranking is
`user_2 ≈ user_4 > user_3`, not `user_2 > user_3 ≈ user_4`), and neither
`business_1` nor `business_2` appears in `recommendedBusinesses` at all. -/
theorem user1_fixture_claim_false :
    ((getRecommendations "user_1").potentialFriends.map
        fun f => (f.userId, f.similarityScore)) =
      [("user_2", 1 / 2), ("user_4", 1 / 2), ("user_3", 1 / 4)]
    ∧ "business_1" ∉ ((getRecommendations "user_1").recommendedBusinesses.map
        fun r => r.business.id)
    ∧ "business_2" ∉ ((getRecommendations "user_1").recommendedBusinesses.map
        fun r => r.business.id) := by
  rw [getRecommendations_user1_friends, getRecommendations_user1_businesses]
  refine ⟨rfl, by simp, by simp⟩

/-- Witness for C5 at a concrete input: `user_2` is the first potential
friend returned for `user_1`, and indeed differs from `user_1`. -/
theorem no_self_recommendation_witness :
    (⟨"user_2", 1 / 2, 2⟩ : FriendRec) ∈ (getRecommendations "user_1").potentialFriends
    ∧ ("user_2" : String) ≠ "user_1" := by
  have hm : (⟨"user_2", 1 / 2, 2⟩ : FriendRec)
      ∈ (getRecommendations "user_1").potentialFriends := by
    rw [getRecommendations_user1_friends]
    exact List.mem_cons_self _ _
  exact ⟨hm, no_self_recommendation "user_1" _ hm⟩

theorem accumLikes_nil (cur : List String) (sim : ℝ) (acc : List String × (String → ℝ)) :
    accumLikes cur sim acc [] = acc := rfl

theorem accumLikes_cons (cur : List String) (sim : ℝ) (acc : List String × (String → ℝ))
    (x : String) (xs : List String) :
    accumLikes cur sim acc (x :: xs) = accumLikes cur sim (accumStep cur sim acc x) xs := rfl

theorem accumStep_eq_of_mem {cur : List String} {x : String} (hx : x ∈ cur)
    (sim : ℝ) (acc : List String × (String → ℝ)) : accumStep cur sim acc x = acc := by
  unfold accumStep
  rw [if_pos hx]

theorem accumStep_snd_self {cur : List String} {x : String} (hx : x ∉ cur)
    (sim : ℝ) (acc : List String × (String → ℝ)) :
    (accumStep cur sim acc x).2 x = acc.2 x + sim := by
  unfold accumStep
  rw [if_neg hx]
  simp

theorem accumStep_snd_ne {cur : List String} {x p : String} (hpx : p ≠ x)
    (sim : ℝ) (acc : List String × (String → ℝ)) :
    (accumStep cur sim acc x).2 p = acc.2 p := by
  unfold accumStep
  split
  · rfl
  · simp [hpx]

theorem accumStep_fst_of_not_mem {cur : List String} {x : String} (hx : x ∉ cur)
    (sim : ℝ) (acc : List String × (String → ℝ)) :
    (accumStep cur sim acc x).1 = insertUnique acc.1 x := by
  unfold accumStep
  rw [if_neg hx]

theorem accumLikes_snd (cur : List String) (sim : ℝ) (likes : List String) :
    ∀ (acc : List String × (String → ℝ)) (p : String),
      (accumLikes cur sim acc likes).2 p
        = acc.2 p + if p ∉ cur then (likes.count p : ℝ) * sim else 0 := by
  induction likes with
  | nil =>
    intro acc p
    rw [accumLikes_nil]
    by_cases hp : p ∈ cur <;> simp [hp]
  | cons x xs ih =>
    intro acc p
    rw [accumLikes_cons, ih]
    by_cases hx : x ∈ cur
    · rw [accumStep_eq_of_mem hx]
      by_cases hp : p ∈ cur
      · simp [hp]
      · have hpx : p ≠ x := fun e => hp (e ▸ hx)
        rw [List.count_cons_of_ne hpx]
    · by_cases hpx : p = x
      · subst hpx
        rw [accumStep_snd_self hx, List.count_cons_self, if_pos hx, if_pos hx]
        push_cast
        ring
      · rw [accumStep_snd_ne hpx, List.count_cons_of_ne hpx]

theorem accumLikes_fst_mem (cur : List String) (sim : ℝ) (likes : List String) :
    ∀ (acc : List String × (String → ℝ)) (q : String),
      q ∈ (accumLikes cur sim acc likes).1 ↔ q ∈ acc.1 ∨ (q ∈ likes ∧ q ∉ cur) := by
  induction likes with
  | nil =>
    intro acc q
    rw [accumLikes_nil]
    simp
  | cons x xs ih =>
    intro acc q
    rw [accumLikes_cons, ih]
    by_cases hx : x ∈ cur
    · rw [accumStep_eq_of_mem hx]
      constructor
      · rintro (h | h)
        · exact Or.inl h
        · exact Or.inr ⟨List.mem_cons_of_mem _ h.1, h.2⟩
      · rintro (h | ⟨hmem, hq⟩)
        · exact Or.inl h
        · rcases List.mem_cons.mp hmem with rfl | hmem2
          · exact absurd hx hq
          · exact Or.inr ⟨hmem2, hq⟩
    · rw [accumStep_fst_of_not_mem hx]
      simp only [mem_insertUnique]
      constructor
      · rintro ((h | rfl) | h)
        · exact Or.inl h
        · exact Or.inr ⟨List.mem_cons_self _ _, hx⟩
        · exact Or.inr ⟨List.mem_cons_of_mem _ h.1, h.2⟩
      · rintro (h | ⟨hmem, hq⟩)
        · exact Or.inl (Or.inl h)
        · rcases List.mem_cons.mp hmem with rfl | hmem2
          · exact Or.inl (Or.inr rfl)
          · exact Or.inr ⟨hmem2, hq⟩

theorem foldl_accumLikes_snd (cur : List String) (S : List SimilarUser) :
    ∀ (acc : List String × (String → ℝ)) (p : String),
      (S.foldl (fun a su => accumLikes cur su.similarity a (likesOf su.userId)) acc).2 p
        = acc.2 p + if p ∉ cur then
            (S.map fun su => ((likesOf su.userId).count p : ℝ) * su.similarity).sum
          else 0 := by
  induction S with
  | nil =>
    intro acc p
    by_cases hp : p ∈ cur <;> simp [hp]
  | cons su S ih =>
    intro acc p
    simp only [List.foldl_cons]
    rw [ih, accumLikes_snd]
    by_cases hp : p ∈ cur
    · simp [hp]
    · simp only [hp, not_false_eq_true, if_pos, List.map_cons, List.sum_cons]
      ring

theorem foldl_accumLikes_fst (cur : List String) (S : List SimilarUser) :
    ∀ (acc : List String × (String → ℝ)) (q : String),
      q ∈ (S.foldl (fun a su => accumLikes cur su.similarity a (likesOf su.userId)) acc).1
        ↔ q ∈ acc.1 ∨ ∃ su ∈ S, q ∈ likesOf su.userId ∧ q ∉ cur := by
  induction S with
  | nil =>
    intro acc q
    simp
  | cons su S ih =>
    intro acc q
    simp only [List.foldl_cons]
    rw [ih, accumLikes_fst_mem]
    constructor
    · rintro ((h | h) | ⟨su2, hsu2, h⟩)
      · exact Or.inl h
      · exact Or.inr ⟨su, List.mem_cons_self _ _, h⟩
      · exact Or.inr ⟨su2, List.mem_cons_of_mem _ hsu2, h⟩
    · rintro (h | ⟨su2, hsu2, h⟩)
      · exact Or.inl (Or.inl h)
      · rcases List.mem_cons.mp hsu2 with rfl | hsu3
        · exact Or.inl (Or.inr h)
        · exact Or.inr ⟨su2, hsu3, h⟩

theorem likesOf_nodup (uid : String) : (likesOf uid).Nodup := by
  by_cases h1 : uid = "user_1"
  · subst h1; decide
  by_cases h2 : uid = "user_2"
  · subst h2; decide
  by_cases h3 : uid = "user_3"
  · subst h3; decide
  by_cases h4 : uid = "user_4"
  · subst h4; decide
  have hk : ∀ p ∈ mockUserLikes, p.1 ≠ uid := by
    intro p hp
    simp only [mockUserLikes, List.mem_cons, List.not_mem_nil, or_false] at hp
    rcases hp with rfl | rfl | rfl | rfl
    · exact fun e => h1 e.symm
    · exact fun e => h2 e.symm
    · exact fun e => h3 e.symm
    · exact fun e => h4 e.symm
  unfold likesOf
  rw [lookup_eq_none_of_no_key _ _ hk]
  exact List.nodup_nil

theorem count_likesOf (uid p : String) :
    ((likesOf uid).count p : ℝ) = if p ∈ likesOf uid then (1 : ℝ) else 0 := by
  by_cases h : p ∈ likesOf uid
  · rw [List.count_eq_one_of_mem (likesOf_nodup uid) h]
    simp [h]
  · rw [List.count_eq_zero_of_not_mem h]
    simp [h]

theorem sum_map_zero {α : Type} (l : List α) : (l.map fun _ => (0 : ℝ)).sum = 0 := by
  induction l with
  | nil => rfl
  | cons x xs ih => simp [ih]

theorem postAccum_fst_mem (userId : String) (q : String) :
    q ∈ (postAccum userId).1
      ↔ ∃ su ∈ topSimilarUsers userId, q ∈ likesOf su.userId ∧ q ∉ likesOf userId := by
  unfold postAccum
  rw [foldl_accumLikes_fst]
  simp

theorem postAccum_snd_eq (userId : String) (p : String) :
    (postAccum userId).2 p
      = ((topSimilarUsers userId).map fun su =>
          if p ∉ likesOf userId ∧ p ∈ likesOf su.userId then su.similarity else 0).sum := by
  unfold postAccum
  rw [foldl_accumLikes_snd]
  simp only [zero_add]
  by_cases hp : p ∈ likesOf userId
  · rw [if_neg (by simpa using hp)]
    have hmap : ((topSimilarUsers userId).map fun su =>
        if p ∉ likesOf userId ∧ p ∈ likesOf su.userId then su.similarity else 0)
        = (topSimilarUsers userId).map fun _ => (0 : ℝ) := by
      apply List.map_congr_left
      intro su _
      rw [if_neg]
      rintro ⟨hnp, _⟩
      exact hnp hp
    rw [hmap, sum_map_zero]
  · rw [if_pos hp]
    congr 1
    apply List.map_congr_left
    intro su _
    rw [count_likesOf]
    by_cases hmem : p ∈ likesOf su.userId
    · simp [hmem, hp]
    · simp [hmem, hp]

theorem businessScores_invariant (userId : String) (C : String → Prop)
    (P : List String) (hP : ∀ q ∈ P, C q) :
    ∀ acc : List (String × ScoredBusiness),
      (∀ e ∈ acc, ∀ q ∈ e.2.recommendedPosts, C q) →
      ∀ e ∈ P.foldl
        (fun acc postId =>
          match mockPostBusinessMap.lookup postId with
          | none => acc
          | some businessId =>
              updateBusiness acc businessId ((postAccum userId).2 postId) postId)
        acc,
      ∀ q ∈ e.2.recommendedPosts, C q := by
  induction P with
  | nil =>
    intro acc hacc e he
    exact hacc e he
  | cons x xs ih =>
    intro acc hacc
    simp only [List.foldl_cons]
    apply ih fun q hq => hP q (List.mem_cons_of_mem _ hq)
    have hCx : C x := hP x (List.mem_cons_self _ _)
    cases hl : mockPostBusinessMap.lookup x with
    | none =>
      simp only [hl]
      exact hacc
    | some bid =>
      simp only [hl]
      intro e he q hq
      unfold updateBusiness at he
      split at he
      · simp only [List.mem_map] at he
        obtain ⟨e0, he0, rfl⟩ := he
        by_cases hb : (e0.1 == bid) = true
        · rw [if_pos hb] at hq
          simp only at hq
          rcases List.mem_append.mp hq with hq1 | hq2
          · exact hacc e0 he0 q hq1
          · rw [List.mem_singleton] at hq2
            subst hq2
            exact hCx
        · rw [if_neg hb] at hq
          exact hacc e0 he0 q hq
      · rcases List.mem_append.mp he with he1 | he2
        · exact hacc e he1 q hq
        · rw [List.mem_singleton] at he2
          subst he2
          rw [List.mem_singleton] at hq
          subst hq
          exact hCx

/-- C6 — Already-liked exclusion: a post the requester already likes is never
entered into `recommendedPostIds` and keeps score 0; every post score is
exactly the sum, over the top similar users that like it, of that user's
similarity (lines 95-106); and every post recorded under a recommended
business is a post the requester does not like (lines 109-122). -/
theorem already_liked_excluded (userId : String) :
    (∀ p ∈ likesOf userId, p ∉ (postAccum userId).1 ∧ (postAccum userId).2 p = 0)
    ∧ (∀ p : String, (postAccum userId).2 p =
        ((topSimilarUsers userId).map fun su =>
          if p ∉ likesOf userId ∧ p ∈ likesOf su.userId then su.similarity else 0).sum)
    ∧ (∀ e ∈ businessScores userId, ∀ q ∈ e.2.recommendedPosts, q ∉ likesOf userId) := by
  refine ⟨?_, postAccum_snd_eq userId, ?_⟩
  · intro p hp
    constructor
    · rw [postAccum_fst_mem]
      rintro ⟨su, _, _, hnp⟩
      exact hnp hp
    · rw [postAccum_snd_eq]
      have hmap : ((topSimilarUsers userId).map fun su =>
          if p ∉ likesOf userId ∧ p ∈ likesOf su.userId then su.similarity else 0)
          = (topSimilarUsers userId).map fun _ => (0 : ℝ) := by
        apply List.map_congr_left
        intro su _
        rw [if_neg]
        rintro ⟨hnp, _⟩
        exact hnp hp
      rw [hmap, sum_map_zero]
  · intro e he q hq
    have hmem : q ∈ (postAccum userId).1 := by
      revert q hq e he
      have := businessScores_invariant userId (fun q => q ∈ (postAccum userId).1)
        (postAccum userId).1 (fun q hq => hq) [] (by intro e he; cases he)
      intro e he q hq
      exact this e he q hq
    rw [postAccum_fst_mem] at hmem
    obtain ⟨su, _, _, hnp⟩ := hmem
    exact hnp

/-- Witness for C6 at a concrete input: `post_1` is liked by `user_1` and is
excluded from `user_1`'s candidate set with score 0. -/
theorem already_liked_excluded_witness :
    "post_1" ∈ likesOf "user_1"
    ∧ ("post_1" ∉ (postAccum "user_1").1 ∧ (postAccum "user_1").2 "post_1" = 0) := by
  have hm : "post_1" ∈ likesOf "user_1" := by decide
  exact ⟨hm, (already_liked_excluded "user_1").1 "post_1" hm⟩

end Luna
